import Mathlib

/-
  Verification of the adm qualitative-evaluation-to-polytope core.

  Shallow embedding of:
  - dl-example/qualitative_evaluation_translator.py
    (QualitativeEvaluationTranslator and the parse_* / translate_evaluations
    functions), and
  - dl-example/polytope_visualizer.py
    (PolytopeVisualizer.__init__ and compute_vertices).

  Conventions of the embedding:
  - Python floats are embedded as exact rationals; numpy linear algebra
    (det, solve) is embedded as exact Laplace determinant and Cramer rule,
    which agree with the mathematical values the numpy calls approximate.
  - numpy vectors / matrices are Lean lists / lists of rows.
  - The Python dict project_index built by enumerate is embedded as
    dictIndex (a later duplicate key overwrites an earlier one).
  - Raised exceptions (KeyError, ValueError) are embedded as Except.error.
  - The process-wide logger used by translate_evaluations is embedded as an
    explicit report list returned next to the constraints (each
    logger.error / logger.warning call appends one entry).
  - The mutable field PolytopeVisualizer._vertices is embedded by explicit
    state passing: compute_vertices returns the result together with the
    updated visualizer record.
-/

/-- EvaluationType enum from qualitative_evaluation_translator.py. -/
inductive EvaluationType where
  | comparison
  | range
  | ranking
  | preference
  | threshold
  deriving DecidableEq, Repr

/-- ComparisonOperator enum from qualitative_evaluation_translator.py. -/
inductive ComparisonOperator where
  | greater
  | less
  | greaterEqual
  | lessEqual
  | equal
  | notEqual
  deriving DecidableEq, Repr

/-- QualitativeEvaluation dataclass. The opaque passthrough fields
timestamp and metadata are never read by the translated core and are
omitted from the embedding. -/
structure QualitativeEvaluation where
  evaluator_id : String
  evaluation_type : EvaluationType
  projects : List String
  operator : Option ComparisonOperator := none
  values : Option (List ℚ) := none
  confidence : ℚ := 1
  criteria : Option String := none
  deriving DecidableEq, Repr

/-- LinearConstraint dataclass: coefficients a and bound b, read as
a dot x <= b (inequality) or a dot x = b (equality). -/
structure LinearConstraint where
  coefficients : List ℚ
  bound : ℚ
  is_equality : Bool := false
  constraint_id : String := ""
  source_evaluation : Option QualitativeEvaluation := none
  deriving DecidableEq, Repr

/-- Placeholder constraint used as List.getD default in statements. -/
def dummyConstraint : LinearConstraint :=
  { coefficients := [], bound := 0 }

/-- Immutable part of QualitativeEvaluationTranslator.__init__ state:
the project and criteria name lists. -/
structure Translator where
  projects : List String
  criteria : List String
  deriving DecidableEq, Repr

/-- Number of variables of the flattened value space,
n_projects * n_criteria. -/
def Translator.nvars (t : Translator) : Nat :=
  t.projects.length * t.criteria.length

/-- Embedding of the Python dict built by
  \x7bproj: i for i, proj in enumerate(projects)\x7d
looked up at one key: the index of the last occurrence of the key,
none when the key is absent (a lookup then raises KeyError). -/
def dictIndexAux (start : Nat) : List String → String → Option Nat
  | [], _ => none
  | p :: ps, x =>
    match dictIndexAux (start + 1) ps x with
    | some i => some i
    | none => if p = x then some start else none

/-- Lookup in project_index / criteria_index. -/
def dictIndex (l : List String) (x : String) : Option Nat :=
  dictIndexAux 0 l x

/-- np.zeros(n) as a list of rationals. -/
def zeros (n : Nat) : List ℚ := List.replicate n 0

/-- One iteration of the criteria loop of parse_comparison_evaluation:
the constraints contributed for criterion crit at position crit_idx
(one constraint for operators >, <, =, none otherwise). -/
def comparisonConstraintAt (t : Translator) (e : QualitativeEvaluation)
    (proj_a proj_b : String) (idx_a idx_b : Nat)
    (crit_idx : Nat) (criterion : String) : List LinearConstraint :=
  let pos_a := idx_a * t.criteria.length + crit_idx
  let pos_b := idx_b * t.criteria.length + crit_idx
  let coeffs := ((zeros t.nvars).set pos_a 1).set pos_b (-1)
  let cid := "comp_" ++ proj_a ++ "_" ++ proj_b ++ "_" ++ criterion
  match e.operator with
  | some ComparisonOperator.greater =>
      [{ coefficients := coeffs, bound := -(1/100), is_equality := false,
         constraint_id := cid, source_evaluation := some e }]
  | some ComparisonOperator.less =>
      [{ coefficients := coeffs, bound := -(1/100), is_equality := false,
         constraint_id := cid, source_evaluation := some e }]
  | some ComparisonOperator.equal =>
      [{ coefficients := coeffs, bound := 0, is_equality := true,
         constraint_id := cid, source_evaluation := some e }]
  | _ => []

/-- The full criteria loop of parse_comparison_evaluation. -/
def comparisonConstraints (t : Translator) (e : QualitativeEvaluation)
    (proj_a proj_b : String) (idx_a idx_b : Nat) : List LinearConstraint :=
  t.criteria.enum.flatMap
    (fun ic => comparisonConstraintAt t e proj_a proj_b idx_a idx_b ic.1 ic.2)

/-- parse_comparison_evaluation: arity check, index lookups (KeyError on a
missing project), then the criteria loop. -/
def parse_comparison_evaluation (t : Translator) (e : QualitativeEvaluation) :
    Except String (List LinearConstraint) :=
  match e.projects with
  | [proj_a, proj_b] =>
    match dictIndex t.projects proj_a with
    | none => Except.error ("KeyError: " ++ proj_a)
    | some idx_a =>
      match dictIndex t.projects proj_b with
      | none => Except.error ("KeyError: " ++ proj_b)
      | some idx_b =>
        Except.ok (comparisonConstraints t e proj_a proj_b idx_a idx_b)
  | _ => Except.error "Comparison evaluation must involve exactly 2 projects"

/-- One iteration of the criteria loop of parse_range_evaluation: the
lower-bound and upper-bound constraints for one criterion. -/
def rangeConstraintsAt (t : Translator) (e : QualitativeEvaluation)
    (proj : String) (idx : Nat) (min_val max_val : ℚ)
    (crit_idx : Nat) (criterion : String) : List LinearConstraint :=
  let pos := idx * t.criteria.length + crit_idx
  [{ coefficients := (zeros t.nvars).set pos 1, bound := min_val,
     is_equality := false,
     constraint_id := "range_lower_" ++ proj ++ "_" ++ criterion,
     source_evaluation := some e },
   { coefficients := (zeros t.nvars).set pos (-1), bound := -max_val,
     is_equality := false,
     constraint_id := "range_upper_" ++ proj ++ "_" ++ criterion,
     source_evaluation := some e }]

/-- parse_range_evaluation. -/
def parse_range_evaluation (t : Translator) (e : QualitativeEvaluation) :
    Except String (List LinearConstraint) :=
  match e.projects with
  | [proj] =>
    match e.values with
    | some [min_val, max_val] =>
      match dictIndex t.projects proj with
      | none => Except.error ("KeyError: " ++ proj)
      | some idx =>
        Except.ok (t.criteria.enum.flatMap
          (fun ic => rangeConstraintsAt t e proj idx min_val max_val ic.1 ic.2))
    | _ => Except.error "Range evaluation must specify exactly 2 values (min, max)"
  | _ => Except.error "Range evaluation must involve exactly 1 project"

/-- One iteration of the criteria loop of parse_threshold_evaluation
(one constraint for >= and <=, none for any other operator). -/
def thresholdConstraintAt (t : Translator) (e : QualitativeEvaluation)
    (proj : String) (idx : Nat) (threshold : ℚ)
    (crit_idx : Nat) (criterion : String) : List LinearConstraint :=
  let pos := idx * t.criteria.length + crit_idx
  let cid := "threshold_" ++ proj ++ "_" ++ criterion
  match e.operator with
  | some ComparisonOperator.greaterEqual =>
      [{ coefficients := (zeros t.nvars).set pos 1, bound := threshold,
         is_equality := false, constraint_id := cid,
         source_evaluation := some e }]
  | some ComparisonOperator.lessEqual =>
      [{ coefficients := (zeros t.nvars).set pos (-1), bound := -threshold,
         is_equality := false, constraint_id := cid,
         source_evaluation := some e }]
  | _ => []

/-- parse_threshold_evaluation. -/
def parse_threshold_evaluation (t : Translator) (e : QualitativeEvaluation) :
    Except String (List LinearConstraint) :=
  match e.projects with
  | [proj] =>
    match e.values with
    | some [v] =>
      match dictIndex t.projects proj with
      | none => Except.error ("KeyError: " ++ proj)
      | some idx =>
        Except.ok (t.criteria.enum.flatMap
          (fun ic => thresholdConstraintAt t e proj idx v ic.1 ic.2))
    | _ => Except.error "Threshold evaluation must specify exactly 1 threshold value"
  | _ => Except.error "Threshold evaluation must involve exactly 1 project"

/-- The comparison evaluation built for one consecutive pair inside
parse_ranking_evaluation. -/
def mkRankingComparison (e : QualitativeEvaluation) (a b : String) :
    QualitativeEvaluation :=
  { evaluator_id := e.evaluator_id,
    evaluation_type := EvaluationType.comparison,
    projects := [a, b],
    operator := some ComparisonOperator.greater,
    values := none,
    confidence := e.confidence,
    criteria := e.criteria }

/-- Sequential monadic map over Except: translates the Python loop that
stops at (propagates) the first raised exception. -/
def exceptMapM (f : α → Except String β) : List α → Except String (List β)
  | [] => Except.ok []
  | a :: as =>
    match f a with
    | Except.error m => Except.error m
    | Except.ok b =>
      match exceptMapM f as with
      | Except.error m => Except.error m
      | Except.ok bs => Except.ok (b :: bs)

/-- The consecutive pairs (projects[i], projects[i+1]). -/
def consecPairs (l : List String) : List (String × String) := l.zip l.tail

/-- parse_ranking_evaluation: arity check, then one comparison per
consecutive pair, concatenated. -/
def parse_ranking_evaluation (t : Translator) (e : QualitativeEvaluation) :
    Except String (List LinearConstraint) :=
  if e.projects.length < 2 then
    Except.error "Ranking evaluation must involve at least 2 projects"
  else
    match exceptMapM
        (fun p => parse_comparison_evaluation t (mkRankingComparison e p.1 p.2))
        (consecPairs e.projects) with
    | Except.error m => Except.error m
    | Except.ok css => Except.ok css.flatten

/-- The dispatch on evaluation_type inside translate_evaluations; the
logger.warning for an unsupported type is embedded as an error value
(both lead to reporting plus continue in the batch loop). -/
def translateOne (t : Translator) (e : QualitativeEvaluation) :
    Except String (List LinearConstraint) :=
  match e.evaluation_type with
  | EvaluationType.comparison => parse_comparison_evaluation t e
  | EvaluationType.range => parse_range_evaluation t e
  | EvaluationType.ranking => parse_ranking_evaluation t e
  | EvaluationType.threshold => parse_threshold_evaluation t e
  | EvaluationType.preference =>
      Except.error "Unsupported evaluation type: preference"

/-- translate_evaluations: the batch loop. Returns the concatenated
constraints of the successful evaluations together with the report of
failures (the logger output, embedded explicitly). -/
def translate_evaluations (t : Translator)
    (evals : List QualitativeEvaluation) :
    List LinearConstraint × List String :=
  evals.foldl
    (fun acc e =>
      match translateOne t e with
      | Except.ok cs => (acc.1 ++ cs, acc.2)
      | Except.error m => (acc.1, acc.2 ++ [m]))
    ([], [])

/-- The constraints of a successfully translated evaluation, [] for a
failed one. -/
def successConstraints (t : Translator) (e : QualitativeEvaluation) :
    List LinearConstraint :=
  match translateOne t e with
  | Except.ok cs => cs
  | Except.error _ => []

/-- The report entry of a failed evaluation, none for a successful one. -/
def failureReport (t : Translator) (e : QualitativeEvaluation) :
    Option String :=
  match translateOne t e with
  | Except.ok _ => none
  | Except.error m => some m

/-- Dot product of two equal-length vectors (numpy row @ x). -/
def dot (a x : List ℚ) : ℚ :=
  ((a.zip x).map (fun p => p.1 * p.2)).sum

/-- (-1)^j, the sign of the Laplace expansion term. -/
def signPow (j : Nat) : ℚ := if j % 2 = 0 then 1 else -1

/-- Laplace expansion of the determinant along the first row, with fuel
equal to the row count; exact counterpart of np.linalg.det on a square
rational matrix. -/
def detAux : Nat → List (List ℚ) → ℚ
  | 0, _ => 1
  | _, [] => 1
  | fuel + 1, r :: rs =>
    ((List.range r.length).map
      (fun j => signPow j * r.getD j 0 *
        detAux fuel (rs.map (fun row => row.eraseIdx j)))).sum

/-- Determinant of a square matrix given as a list of rows. -/
def det (m : List (List ℚ)) : ℚ := detAux m.length m

/-- The matrix m with column j replaced by the vector b. -/
def replaceCol (m : List (List ℚ)) (j : Nat) (b : List ℚ) :
    List (List ℚ) :=
  (m.zip b).map (fun rb => rb.1.set j rb.2)

/-- Cramer-rule solution of the square system m x = b; exact counterpart
of np.linalg.solve when det m is nonzero. -/
def solveSystem (m : List (List ℚ)) (b : List ℚ) : List ℚ :=
  let d := det m
  (List.range m.length).map (fun j => det (replaceCol m j b) / d)

/-- Feasibility slack tolerance 1e-10 used by compute_vertices. -/
def feasTol : ℚ := 1 / 10000000000

/-- Absolute tolerance 1e-8 passed to np.allclose by the deduplication. -/
def dedupAtol : ℚ := 1 / 100000000

/-- Default relative tolerance 1e-5 of np.allclose (not overridden by the
deduplication call). -/
def dedupRtol : ℚ := 1 / 100000

/-- Absolute value on the rationals, as computed by np.abs. -/
def ratAbs (q : ℚ) : ℚ := if q < 0 then -q else q

/-- np.all(A_ineq @ x <= b_ineq + 1e-10). -/
def satisfiesIneq (A : List (List ℚ)) (b : List ℚ) (x : List ℚ) : Bool :=
  (A.zip b).all (fun rb => if dot rb.1 x ≤ rb.2 + feasTol then true else false)

/-- all(bounds[i][0] <= vertex[i] <= bounds[i][1] for i in range(n)). -/
def inBounds (bounds : List (ℚ × ℚ)) (x : List ℚ) (n : Nat) : Bool :=
  (List.range n).all
    (fun i =>
      if (bounds.getD i (0, 0)).1 ≤ x.getD i 0 ∧
         x.getD i 0 ≤ (bounds.getD i (0, 0)).2 then true else false)

/-- np.allclose(a, b, atol=1e-8): every coordinate satisfies
|a_i - b_i| <= atol + rtol * |b_i| with the default rtol = 1e-5. -/
def allclose (a b : List ℚ) : Bool :=
  (a.zip b).all
    (fun p => if ratAbs (p.1 - p.2) ≤ dedupAtol + dedupRtol * ratAbs p.2
              then true else false)

/-- The deduplication loop of compute_vertices: keep a candidate only if
it is not allclose to an already kept vertex. -/
def dedupVertices (vs : List (List ℚ)) : List (List ℚ) :=
  vs.foldl
    (fun acc v => if acc.any (fun e => allclose v e) then acc else acc ++ [v])
    []

/-- itertools.combinations over a list, in lexicographic order. -/
def combinations : Nat → List α → List (List α)
  | 0, _ => [[]]
  | _ + 1, [] => []
  | n + 1, x :: xs =>
    (combinations n xs).map (fun c => x :: c) ++ combinations (n + 1) xs

/-- The combinations of n constraint-row indices examined by the
brute-force enumeration: combinations(range(len(b_ineq)), n). -/
def examinedCombos (b : List ℚ) (n : Nat) : List (List Nat) :=
  combinations n (List.range b.length)

/-- Default bounds [(-10, 10)] * n. -/
def defaultBounds (n : Nat) : List (ℚ × ℚ) :=
  List.replicate n (-10, 10)

/-- One iteration of the enumeration loop: the candidate vertex produced
by a combination of row indices, none when the subsystem is singular or
the solved point fails the feasibility or bounding-box check. -/
def candidateAt (A : List (List ℚ)) (b : List ℚ) (n : Nat)
    (bounds : List (ℚ × ℚ)) (idxs : List Nat) : Option (List ℚ) :=
  let Asub := idxs.map (fun i => A.getD i [])
  let bsub := idxs.map (fun i => b.getD i 0)
  if det Asub ≠ 0 then
    let v := solveSystem Asub bsub
    if satisfiesIneq A b v && inBounds bounds v n then some v else none
  else none

/-- The fallback (constraint-intersection) vertex enumeration of
compute_vertices: candidates from all combinations, then deduplication. -/
def enumerateVertices (A : List (List ℚ)) (b : List ℚ) (n : Nat)
    (bounds : List (ℚ × ℚ)) : List (List ℚ) :=
  dedupVertices ((examinedCombos b n).filterMap (candidateAt A b n bounds))

/-- The constraint matrix quadruple built by get_constraint_matrices. -/
structure ConstraintMatrices where
  A_ineq : List (List ℚ)
  b_ineq : List ℚ
  A_eq : List (List ℚ)
  b_eq : List ℚ
  deriving DecidableEq, Repr

/-- get_constraint_matrices on an already translated constraint list:
partition into inequality and equality rows, preserving order. When a
partition is empty the Python code builds np.empty((0, nvars)), an array
with zero rows -- embedded as the empty list of rows, never a missing
value. -/
def get_constraint_matrices (constraints : List LinearConstraint) :
    ConstraintMatrices :=
  let ineq := constraints.filter (fun c => !c.is_equality)
  let eq := constraints.filter (fun c => c.is_equality)
  { A_ineq := ineq.map (fun c => c.coefficients),
    b_ineq := ineq.map (fun c => c.bound),
    A_eq := eq.map (fun c => c.coefficients),
    b_eq := eq.map (fun c => c.bound) }

/-- PolytopeVisualizer state after __init__. The A_eq field is typed as an
Option because the guard in compute_vertices tests `self.A_eq is None`;
__init__ always stores the (possibly zero-row) array returned by
get_constraint_matrices. -/
structure PolytopeVisualizer where
  A_ineq : List (List ℚ)
  b_ineq : List ℚ
  A_eq : Option (List (List ℚ))
  b_eq : List ℚ
  n_dimensions : Nat
  vertices_cache : Option (List (List ℚ))
  deriving DecidableEq, Repr

/-- PolytopeVisualizer.__init__ from a translator and its translated
constraint list. -/
def PolytopeVisualizer.init (t : Translator)
    (constraints : List LinearConstraint) : PolytopeVisualizer :=
  let m := get_constraint_matrices constraints
  { A_ineq := m.A_ineq, b_ineq := m.b_ineq,
    A_eq := some m.A_eq, b_eq := m.b_eq,
    n_dimensions := t.nvars, vertices_cache := none }

/-- Modelled from the spec: the external pypoman library call
pypoman.compute_polytope_vertices used on the library path of
compute_vertices. The library is not part of this repository; the guard
before the call is proved never to hold for a visualizer built by
__init__, so no behavior of this model is ever observable. -/
def pypomanComputeVertices (A : List (List ℚ)) (b : List ℚ) :
    List (List ℚ) := []

/-- The fallback branch of compute_vertices: default bounds when none are
supplied, then the brute-force enumeration. -/
def fallbackVertices (v : PolytopeVisualizer)
    (bounds : Option (List (ℚ × ℚ))) : List (List ℚ) :=
  enumerateVertices v.A_ineq v.b_ineq v.n_dimensions
    (bounds.getD (defaultBounds v.n_dimensions))

/-- compute_vertices with the cached-vertices field passed explicitly:
returns the computed (or cached) vertex list and the updated state.
pypoman_available embeds the module-level PYPOMAN_AVAILABLE flag. -/
def compute_vertices (pypoman_available : Bool) (v : PolytopeVisualizer)
    (bounds : Option (List (ℚ × ℚ))) :
    List (List ℚ) × PolytopeVisualizer :=
  match v.vertices_cache with
  | some vs => (vs, v)
  | none =>
    if pypoman_available && v.A_eq.isNone then
      let vs := pypomanComputeVertices v.A_ineq v.b_ineq
      (vs, { v with vertices_cache := some vs })
    else
      let vs := fallbackVertices v bounds
      (vs, { v with vertices_cache := some vs })

/-- The equality-feasibility check the specification asks of returned
vertices (A_eq @ x within the tolerance of b_eq); compute_vertices never
performs it. -/
def satisfiesEqWithinTol (Aeq : List (List ℚ)) (beq : List ℚ)
    (x : List ℚ) : Bool :=
  (Aeq.zip beq).all
    (fun rb => if ratAbs (dot rb.1 x - rb.2) ≤ feasTol then true else false)

/-- The strict max-coordinate closeness predicate of the specification:
every paired coordinate differs by less than 1e-8. -/
def coordClose (a b : List ℚ) : Prop :=
  ∀ p ∈ a.zip b, ratAbs (p.1 - p.2) < dedupAtol

/-- The projection of a constraint compared by the operator-mirroring
property: coefficient vector, bound and equality flag. -/
def constraintData (c : LinearConstraint) : List ℚ × ℚ × Bool :=
  (c.coefficients, c.bound, c.is_equality)

/-- Concrete translator used for witness instantiations: one project,
one criterion. -/
def cexTranslator : Translator :=
  { projects := ["A"], criteria := ["value"] }

/-- Concrete constraint system with two inequality rows (x <= 5 and
-x <= 5) and one equality row (x = 3). -/
def cexConstraints : List LinearConstraint :=
  [ { coefficients := [1], bound := 5, is_equality := false },
    { coefficients := [-1], bound := 5, is_equality := false },
    { coefficients := [1], bound := 3, is_equality := true } ]

/-- Concrete translator with three projects and one criterion, used for
witness instantiations of the translator claims. -/
def wTranslator : Translator :=
  { projects := ["A", "B", "C"], criteria := ["value"] }

/-- Concrete comparison evaluation A > B. -/
def wCompare : QualitativeEvaluation :=
  { evaluator_id := "expert_1",
    evaluation_type := EvaluationType.comparison,
    projects := ["A", "B"],
    operator := some ComparisonOperator.greater }

/-- Concrete ranking evaluation A > B > C. -/
def wRanking : QualitativeEvaluation :=
  { evaluator_id := "expert_3",
    evaluation_type := EvaluationType.ranking,
    projects := ["A", "B", "C"] }

/-- Concrete comparison evaluation with the unsupported operator >=. -/
def wCompareGE : QualitativeEvaluation :=
  { evaluator_id := "expert_1",
    evaluation_type := EvaluationType.comparison,
    projects := ["A", "B"],
    operator := some ComparisonOperator.greaterEqual }

/-- Concrete threshold evaluation with the unsupported operator >. -/
def wThresholdGT : QualitativeEvaluation :=
  { evaluator_id := "expert_4",
    evaluation_type := EvaluationType.threshold,
    projects := ["A"],
    operator := some ComparisonOperator.greater,
    values := some [1/2] }

lemma iteTF_eq_true {c : Prop} [Decidable c] :
    (if c then true else false) = true ↔ c := by
  by_cases h : c <;> simp [h]

lemma iteTF_eq_false {c : Prop} [Decidable c] :
    (if c then true else false) = false ↔ ¬ c := by
  by_cases h : c <;> simp [h]

lemma ratAbs_nonneg (q : ℚ) : 0 ≤ ratAbs q := by
  unfold ratAbs; split <;> linarith

lemma ratAbs_sub_comm (a b : ℚ) : ratAbs (a - b) = ratAbs (b - a) := by
  unfold ratAbs; split <;> split <;> linarith

lemma zeros_getD (n k : Nat) : (zeros n).getD k 0 = 0 := by
  by_cases h : k < n
  · rw [zeros, List.getD_eq_getElem _ _ (by simpa using h)]
    simp
  · rw [zeros, List.getD_eq_default]
    simpa using Nat.le_of_not_lt h

lemma getD_set_self :
    ∀ (l : List ℚ) (p : Nat), p < l.length → ∀ a : ℚ,
      (l.set p a).getD p 0 = a
  | [], p, hp, a => by simp at hp
  | x :: xs, 0, _, a => rfl
  | x :: xs, p + 1, hp, a => by
    simpa [List.set] using getD_set_self xs p (by simpa using hp) a

lemma getD_set_ne :
    ∀ (l : List ℚ) (p k : Nat), k ≠ p → ∀ a : ℚ,
      (l.set p a).getD k 0 = l.getD k 0
  | [], _, _, _, _ => by simp [List.set]
  | x :: xs, 0, 0, hk, a => absurd rfl hk
  | x :: xs, 0, k + 1, _, a => rfl
  | x :: xs, p + 1, 0, _, a => rfl
  | x :: xs, p + 1, k + 1, hk, a => by
    simpa [List.set] using getD_set_ne xs p k (by omega) a

lemma dictIndexAux_lt :
    ∀ (l : List String) (s : Nat) (x : String) (i : Nat),
      dictIndexAux s l x = some i → i < s + l.length := by
  intro l
  induction l with
  | nil => intro s x i h; simp [dictIndexAux] at h
  | cons p ps ih =>
    intro s x i h
    unfold dictIndexAux at h
    split at h
    next j hr =>
      have hji : j = i := Option.some.inj h
      subst hji
      have := ih (s + 1) x j hr
      simp only [List.length_cons]
      omega
    next hr =>
      split at h
      · cases h
        simp only [List.length_cons]
        omega
      · exact Option.noConfusion h

lemma dictIndex_lt (l : List String) (x : String) (i : Nat)
    (h : dictIndex l x = some i) : i < l.length := by
  simpa using dictIndexAux_lt l 0 x i h

lemma flat_pos_lt (i c np nc : Nat) (hi : i < np) (hc : c < nc) :
    i * nc + c < np * nc := by
  calc i * nc + c < i * nc + nc := by omega
    _ = (i + 1) * nc := by ring
    _ ≤ np * nc := Nat.mul_le_mul_right nc hi

lemma flatMap_singleton_eq_map (l : List α) (f : α → List β) (g : α → β)
    (h : ∀ x ∈ l, f x = [g x]) : l.flatMap f = l.map g := by
  induction l with
  | nil => rfl
  | cons a as ih =>
    rw [List.flatMap_cons, h a (by simp), List.map_cons,
      ih (fun x hx => h x (List.mem_cons_of_mem a hx))]
    rfl

lemma flatMap_nil_of_all (l : List α) (f : α → List β)
    (h : ∀ x ∈ l, f x = []) : l.flatMap f = [] := by
  induction l with
  | nil => rfl
  | cons a as ih =>
    rw [List.flatMap_cons, h a (by simp),
      ih (fun x hx => h x (List.mem_cons_of_mem a hx))]
    rfl

lemma length_flatMap_one (l : List α) (f : α → List β)
    (h : ∀ x ∈ l, (f x).length = 1) : (l.flatMap f).length = l.length := by
  induction l with
  | nil => rfl
  | cons a as ih =>
    rw [List.flatMap_cons, List.length_append, h a (by simp),
      ih (fun x hx => h x (List.mem_cons_of_mem a hx))]
    simp [List.length_cons]
    omega

lemma enum_map_getD {β : Type} (crits : List String) (g : Nat × String → β)
    (c : Nat) (hc : c < crits.length) (d : β) :
    (crits.enum.map g).getD c d = g (c, crits.get ⟨c, hc⟩) := by
  have hlen : c < (crits.enum.map g).length := by
    simpa [List.length_map, List.enum_length] using hc
  rw [List.getD_eq_getElem _ _ hlen]
  simp [List.getElem_map, List.getElem_enum, List.get_eq_getElem]

lemma dedupVertices_go_mem :
    ∀ (vs acc : List (List ℚ)) (x : List ℚ),
      x ∈ vs.foldl
        (fun acc v =>
          if acc.any (fun e => allclose v e) then acc else acc ++ [v]) acc →
      x ∈ acc ∨ x ∈ vs := by
  intro vs
  induction vs with
  | nil => intro acc x h; exact Or.inl h
  | cons v vs ih =>
    intro acc x h
    rcases ih _ x h with hmem | hmem
    · dsimp only at hmem
      by_cases hc : acc.any (fun e => allclose v e)
      · rw [if_pos hc] at hmem
        exact Or.inl hmem
      · rw [if_neg hc] at hmem
        rcases List.mem_append.mp hmem with h1 | h1
        · exact Or.inl h1
        · exact Or.inr (by simp at h1; simp [h1])
    · exact Or.inr (List.mem_cons_of_mem v hmem)

lemma mem_dedupVertices (vs : List (List ℚ)) (x : List ℚ)
    (h : x ∈ dedupVertices vs) : x ∈ vs := by
  rcases dedupVertices_go_mem vs [] x h with h1 | h1
  · simp at h1
  · exact h1

lemma dedupVertices_go_pairwise :
    ∀ (vs acc : List (List ℚ)),
      List.Pairwise (fun a b => allclose b a = false) acc →
      List.Pairwise (fun a b => allclose b a = false)
        (vs.foldl
          (fun acc v =>
            if acc.any (fun e => allclose v e) then acc else acc ++ [v]) acc) := by
  intro vs
  induction vs with
  | nil => intro acc h; exact h
  | cons v vs ih =>
    intro acc h
    apply ih
    dsimp only
    by_cases hc : acc.any (fun e => allclose v e)
    · rw [if_pos hc]; exact h
    · rw [if_neg hc]
      rw [List.pairwise_append]
      refine ⟨h, List.pairwise_singleton _ _, ?_⟩
      intro a ha b hb
      have hb' : b = v := by simpa using hb
      subst hb'
      have hfalse := Bool.eq_false_iff.mpr hc
      rw [List.any_eq_false] at hfalse
      simpa using hfalse a ha

lemma dedupVertices_pairwise (vs : List (List ℚ)) :
    List.Pairwise (fun a b => allclose b a = false) (dedupVertices vs) :=
  dedupVertices_go_pairwise vs [] List.Pairwise.nil

lemma combinations_length {α : Type} :
    ∀ (l : List α) (n : Nat),
      (combinations n l).length = Nat.choose l.length n := by
  intro l
  induction l with
  | nil =>
    intro n
    cases n with
    | zero => rfl
    | succ m => rfl
  | cons x xs ih =>
    intro n
    cases n with
    | zero => simp [combinations]
    | succ m =>
      simp only [combinations, List.length_append, List.length_map, ih,
        List.length_cons, Nat.choose_succ_succ]

lemma enumerateVertices_mem (A : List (List ℚ)) (b : List ℚ) (n : Nat)
    (bounds : List (ℚ × ℚ)) (x : List ℚ)
    (hx : x ∈ enumerateVertices A b n bounds) :
    satisfiesIneq A b x = true ∧ inBounds bounds x n = true := by
  have hx' := mem_dedupVertices _ _ hx
  obtain ⟨idxs, _, hc⟩ := List.mem_filterMap.mp hx'
  simp only [candidateAt] at hc
  split at hc
  · split at hc
    next hcheck =>
      have hveq : solveSystem (idxs.map (fun i => A.getD i []))
          (idxs.map (fun i => b.getD i 0)) = x := Option.some.inj hc
      rw [hveq] at hcheck
      exact Bool.and_eq_true _ _ |>.mp hcheck
    next => exact Option.noConfusion hc
  · exact Option.noConfusion hc

lemma compute_vertices_init (pa : Bool) (t : Translator)
    (cs : List LinearConstraint) (bounds : Option (List (ℚ × ℚ))) :
    compute_vertices pa (PolytopeVisualizer.init t cs) bounds =
      (fallbackVertices (PolytopeVisualizer.init t cs) bounds,
       { PolytopeVisualizer.init t cs with
           vertices_cache :=
             some (fallbackVertices (PolytopeVisualizer.init t cs) bounds) }) := by
  simp [compute_vertices, PolytopeVisualizer.init]

lemma parse_comparison_ok (t : Translator) (e : QualitativeEvaluation)
    (a b : String) (ia ib : Nat) (hp : e.projects = [a, b])
    (ha : dictIndex t.projects a = some ia)
    (hb : dictIndex t.projects b = some ib) :
    parse_comparison_evaluation t e =
      Except.ok (comparisonConstraints t e a b ia ib) := by
  simp [parse_comparison_evaluation, hp, ha, hb]

lemma comparisonConstraintAt_greater (t : Translator)
    (e : QualitativeEvaluation) (a b : String) (ia ib ci : Nat)
    (crit : String) (hop : e.operator = some ComparisonOperator.greater) :
    comparisonConstraintAt t e a b ia ib ci crit =
      [{ coefficients :=
           ((zeros t.nvars).set (ia * t.criteria.length + ci) 1).set
             (ib * t.criteria.length + ci) (-1),
         bound := -(1/100), is_equality := false,
         constraint_id := "comp_" ++ a ++ "_" ++ b ++ "_" ++ crit,
         source_evaluation := some e }] := by
  simp [comparisonConstraintAt, hop]

lemma comparisonConstraints_length_greater (t : Translator)
    (e : QualitativeEvaluation) (a b : String) (ia ib : Nat)
    (hop : e.operator = some ComparisonOperator.greater) :
    (comparisonConstraints t e a b ia ib).length = t.criteria.length := by
  unfold comparisonConstraints
  rw [length_flatMap_one _ _
    (fun ic _ => by
      rw [comparisonConstraintAt_greater t e a b ia ib ic.1 ic.2 hop]
      rfl)]
  simp [List.enum_length]

lemma consecPairs_mem (l : List String) (p : String × String)
    (hp : p ∈ consecPairs l) : p.1 ∈ l ∧ p.2 ∈ l := by
  unfold consecPairs at hp
  have h := List.of_mem_zip hp
  refine ⟨h.1, ?_⟩
  cases l with
  | nil => simp at h
  | cons x xs => exact List.mem_cons_of_mem x h.2

lemma consecPairs_length (l : List String) :
    (consecPairs l).length = l.length - 1 := by
  unfold consecPairs
  rw [List.length_zip, List.length_tail]
  omega

lemma exceptMapM_ok_of_all {α : Type} (nc : Nat)
    (f : α → Except String (List LinearConstraint)) :
    ∀ l : List α,
      (∀ a ∈ l, ∃ cs, f a = Except.ok cs ∧ cs.length = nc) →
      ∃ out, exceptMapM f l = Except.ok out ∧
        out.flatten.length = l.length * nc := by
  intro l
  induction l with
  | nil => intro _; exact ⟨[], rfl, by simp⟩
  | cons a as ih =>
    intro h
    obtain ⟨cs, hcs, hlen⟩ := h a (by simp)
    obtain ⟨out, hout, hjl⟩ := ih (fun x hx => h x (List.mem_cons_of_mem a hx))
    refine ⟨cs :: out, ?_, ?_⟩
    · simp [exceptMapM, hcs, hout]
    · rw [List.flatten_cons, List.length_append, hlen, hjl]
      simp [List.length_cons]
      ring

lemma translate_evaluations_go (t : Translator) :
    ∀ (evals : List QualitativeEvaluation)
      (acc : List LinearConstraint × List String),
      evals.foldl
        (fun acc e =>
          match translateOne t e with
          | Except.ok cs => (acc.1 ++ cs, acc.2)
          | Except.error m => (acc.1, acc.2 ++ [m])) acc =
      (acc.1 ++ (evals.map (successConstraints t)).flatten,
       acc.2 ++ evals.filterMap (failureReport t)) := by
  intro evals
  induction evals with
  | nil => intro acc; simp
  | cons e es ih =>
    intro acc
    rw [List.foldl_cons, ih]
    cases h : translateOne t e with
    | ok cs =>
      simp [successConstraints, failureReport, h, List.append_assoc]
    | error m =>
      simp [successConstraints, failureReport, h, List.append_assoc]

/-- Claim C3: batch translation never aborts on one bad evaluation: the
result of translate_evaluations is the in-order concatenation of the
constraints of the successfully translated evaluations, together with
the report of the failed evaluations and their error messages. -/
theorem translate_evaluations_never_aborts (t : Translator)
    (evals : List QualitativeEvaluation) :
    translate_evaluations t evals =
      ((evals.map (successConstraints t)).flatten,
       evals.filterMap (failureReport t)) := by
  unfold translate_evaluations
  rw [translate_evaluations_go]
  simp

/-- Claim C7 (code evaluation at the failing configuration): the
brute-force enumeration of compute_vertices examines every one of the
C(n_constraints, n_dimensions) index combinations; there is no
combination budget, wall-clock budget or truncation flag anywhere in its
input or output. -/
theorem enumeration_examines_all_combinations (b : List ℚ) (n : Nat) :
    (examinedCombos b n).length = Nat.choose b.length n := by
  unfold examinedCombos
  rw [combinations_length]
  simp [List.length_range]

/-- Claim C8: for every translator-built visualizer the A_eq field is an
array (possibly with zero rows), never a missing value, so the guard of
the library-based vertex path is false for every value of the
PYPOMAN_AVAILABLE flag and compute_vertices always runs the brute-force
fallback. -/
theorem library_path_unreachable (pa : Bool) (t : Translator)
    (cs : List LinearConstraint) (bounds : Option (List (ℚ × ℚ))) :
    (PolytopeVisualizer.init t cs).A_eq =
        some (get_constraint_matrices cs).A_eq ∧
    (pa && (PolytopeVisualizer.init t cs).A_eq.isNone) = false ∧
    compute_vertices pa (PolytopeVisualizer.init t cs) bounds =
      (fallbackVertices (PolytopeVisualizer.init t cs) bounds,
       { PolytopeVisualizer.init t cs with
           vertices_cache :=
             some (fallbackVertices (PolytopeVisualizer.init t cs) bounds) }) := by
  refine ⟨rfl, ?_, compute_vertices_init pa t cs bounds⟩
  simp [PolytopeVisualizer.init]

/-- Claim C9: after the first call of compute_vertices, every further
call returns the cached result unchanged, whatever bounds argument (and
whatever library-availability flag) is supplied. -/
theorem compute_vertices_cached_after_first_call (pa1 pa2 : Bool)
    (v : PolytopeVisualizer) (bounds1 bounds2 : Option (List (ℚ × ℚ))) :
    compute_vertices pa2 (compute_vertices pa1 v bounds1).2 bounds2 =
      compute_vertices pa1 v bounds1 := by
  cases hc : v.vertices_cache with
  | some vs => simp [compute_vertices, hc]
  | none =>
    by_cases hg : (pa1 && v.A_eq.isNone) = true
    · simp [compute_vertices, hc, hg]
    · simp [compute_vertices, hc, hg]

/-- Claim C1 (amended): every vertex returned by the vertex computation
of a translator-built visualizer satisfies all inequality constraints
within the 1e-10 slack tolerance and lies within the search bounding
box; the equality constraints are not part of the acceptance check. -/
theorem vertices_satisfy_inequalities_within_tol (t : Translator)
    (cs : List LinearConstraint) (pa : Bool)
    (bounds : Option (List (ℚ × ℚ))) (x : List ℚ)
    (hx : x ∈ (compute_vertices pa (PolytopeVisualizer.init t cs) bounds).1) :
    satisfiesIneq (PolytopeVisualizer.init t cs).A_ineq
        (PolytopeVisualizer.init t cs).b_ineq x = true ∧
    inBounds (bounds.getD
        (defaultBounds (PolytopeVisualizer.init t cs).n_dimensions)) x
        (PolytopeVisualizer.init t cs).n_dimensions = true := by
  rw [compute_vertices_init] at hx
  exact enumerateVertices_mem _ _ _ _ _ (by simpa [fallbackVertices] using hx)

/-- Claim C1 (counterexample): on the system with inequalities x <= 5,
-x <= 5 and equality x = 3, the vertex [5] is returned by
compute_vertices although it violates the equality constraint by far
more than the 1e-10 tolerance. -/
theorem vertex_satisfies_equalities_cex :
    [(5 : ℚ)] ∈
      (compute_vertices false
        (PolytopeVisualizer.init cexTranslator cexConstraints) none).1 ∧
    satisfiesEqWithinTol
      ((PolytopeVisualizer.init cexTranslator cexConstraints).A_eq.getD [])
      (PolytopeVisualizer.init cexTranslator cexConstraints).b_eq
      [(5 : ℚ)] = false := by
  constructor
  · norm_num [compute_vertices, PolytopeVisualizer.init,
      get_constraint_matrices, cexConstraints, cexTranslator,
      Translator.nvars, fallbackVertices, enumerateVertices, examinedCombos,
      combinations, candidateAt, det, detAux, signPow, solveSystem,
      replaceCol, dot, satisfiesIneq, inBounds, feasTol, defaultBounds,
      dedupVertices, allclose, ratAbs, dedupAtol, dedupRtol, List.filter,
      List.filterMap, List.foldl, List.zip, List.zipWith, List.range,
      List.range.loop]
  · norm_num [satisfiesEqWithinTol, PolytopeVisualizer.init,
      get_constraint_matrices, cexConstraints, cexTranslator,
      Translator.nvars, dot, ratAbs, feasTol, List.filter, List.zip,
      List.zipWith]

/-- Witness for the amended claim C1 at the concrete system of the
counterexample: the returned vertex [5] passes the inequality and
bounding-box checks. -/
theorem vertices_satisfy_inequalities_within_tol_witness :
    satisfiesIneq (PolytopeVisualizer.init cexTranslator cexConstraints).A_ineq
        (PolytopeVisualizer.init cexTranslator cexConstraints).b_ineq
        [(5 : ℚ)] = true ∧
    inBounds ((none : Option (List (ℚ × ℚ))).getD
        (defaultBounds
          (PolytopeVisualizer.init cexTranslator cexConstraints).n_dimensions))
        [(5 : ℚ)]
        (PolytopeVisualizer.init cexTranslator cexConstraints).n_dimensions =
      true :=
  vertices_satisfy_inequalities_within_tol cexTranslator cexConstraints false
    none [5]
    (by norm_num [compute_vertices, PolytopeVisualizer.init,
      get_constraint_matrices, cexConstraints, cexTranslator,
      Translator.nvars, fallbackVertices, enumerateVertices, examinedCombos,
      combinations, candidateAt, det, detAux, signPow, solveSystem,
      replaceCol, dot, satisfiesIneq, inBounds, feasTol, defaultBounds,
      dedupVertices, allclose, ratAbs, dedupAtol, dedupRtol, List.filter,
      List.filterMap, List.foldl, List.zip, List.zipWith, List.range,
      List.range.loop])

/-- Claim C2: a Comparison evaluation with operator > between distinct
known entities a and b and no criterion restriction emits, for each
criterion c, exactly one constraint whose coefficient vector is +1 at
index(a,c), -1 at index(b,c) and zero elsewhere, with bound -0.01 and
is_equality false. -/
theorem comparison_greater_constraint_shape (t : Translator)
    (e : QualitativeEvaluation) (a b : String) (ia ib : Nat)
    (htype : e.evaluation_type = EvaluationType.comparison)
    (hcrit : e.criteria = none)
    (hp : e.projects = [a, b])
    (hop : e.operator = some ComparisonOperator.greater)
    (ha : dictIndex t.projects a = some ia)
    (hb : dictIndex t.projects b = some ib)
    (hab : ia ≠ ib) :
    ∃ cs, parse_comparison_evaluation t e = Except.ok cs ∧
      cs.length = t.criteria.length ∧
      ∀ c, c < t.criteria.length →
        (cs.getD c dummyConstraint).bound = -(1/100) ∧
        (cs.getD c dummyConstraint).is_equality = false ∧
        (cs.getD c dummyConstraint).coefficients.length = t.nvars ∧
        ∀ k, k < t.nvars →
          (cs.getD c dummyConstraint).coefficients.getD k 0 =
            if k = ia * t.criteria.length + c then 1
            else if k = ib * t.criteria.length + c then -1 else 0 := by
  refine ⟨comparisonConstraints t e a b ia ib,
    parse_comparison_ok t e a b ia ib hp ha hb,
    comparisonConstraints_length_greater t e a b ia ib hop, ?_⟩
  intro c hc
  have hmap : comparisonConstraints t e a b ia ib =
      t.criteria.enum.map (fun ic =>
        ({ coefficients :=
             ((zeros t.nvars).set (ia * t.criteria.length + ic.1) 1).set
               (ib * t.criteria.length + ic.1) (-1),
           bound := -(1/100), is_equality := false,
           constraint_id := "comp_" ++ a ++ "_" ++ b ++ "_" ++ ic.2,
           source_evaluation := some e } : LinearConstraint)) := by
    unfold comparisonConstraints
    exact flatMap_singleton_eq_map _ _ _
      (fun ic _ => comparisonConstraintAt_greater t e a b ia ib ic.1 ic.2 hop)
  rw [hmap, enum_map_getD t.criteria _ c hc]
  refine ⟨rfl, rfl, ?_, ?_⟩
  · simp [zeros, List.length_set, List.length_replicate]
  · intro k hk
    have hia : ia < t.projects.length := dictIndex_lt _ _ _ ha
    have hib : ib < t.projects.length := dictIndex_lt _ _ _ hb
    have hpa : ia * t.criteria.length + c < t.nvars :=
      flat_pos_lt _ _ _ _ hia hc
    have hpb : ib * t.criteria.length + c < t.nvars :=
      flat_pos_lt _ _ _ _ hib hc
    have hne : ia * t.criteria.length + c ≠ ib * t.criteria.length + c := by
      intro hcontra
      apply hab
      have hmul : ia * t.criteria.length = ib * t.criteria.length := by omega
      exact Nat.eq_of_mul_eq_mul_right (by omega) hmul
    by_cases hk1 : k = ia * t.criteria.length + c
    · subst hk1
      rw [if_pos rfl, getD_set_ne _ _ _ hne,
        getD_set_self _ _ (by simpa [zeros] using hpa)]
    · rw [if_neg hk1]
      by_cases hk2 : k = ib * t.criteria.length + c
      · subst hk2
        rw [if_pos rfl,
          getD_set_self _ _ (by simpa [zeros, List.length_set] using hpb)]
      · rw [if_neg hk2, getD_set_ne _ _ _ hk2, getD_set_ne _ _ _ hk1,
          zeros_getD]

/-- Witness for claim C2 at the comparison A > B over the three-project
translator with index(A) = 0 and index(B) = 1. -/
theorem comparison_greater_constraint_shape_witness :
    ∃ cs, parse_comparison_evaluation wTranslator wCompare = Except.ok cs ∧
      cs.length = wTranslator.criteria.length ∧
      ∀ c, c < wTranslator.criteria.length →
        (cs.getD c dummyConstraint).bound = -(1/100) ∧
        (cs.getD c dummyConstraint).is_equality = false ∧
        (cs.getD c dummyConstraint).coefficients.length = wTranslator.nvars ∧
        ∀ k, k < wTranslator.nvars →
          (cs.getD c dummyConstraint).coefficients.getD k 0 =
            if k = 0 * wTranslator.criteria.length + c then 1
            else if k = 1 * wTranslator.criteria.length + c then -1 else 0 :=
  comparison_greater_constraint_shape wTranslator wCompare "A" "B" 0 1 rfl rfl
    rfl rfl (by decide) (by decide) (by decide)

lemma comparisonConstraintAt_less (t : Translator)
    (e : QualitativeEvaluation) (a b : String) (ia ib ci : Nat)
    (crit : String) (hop : e.operator = some ComparisonOperator.less) :
    comparisonConstraintAt t e a b ia ib ci crit =
      [{ coefficients :=
           ((zeros t.nvars).set (ia * t.criteria.length + ci) 1).set
             (ib * t.criteria.length + ci) (-1),
         bound := -(1/100), is_equality := false,
         constraint_id := "comp_" ++ a ++ "_" ++ b ++ "_" ++ crit,
         source_evaluation := some e }] := by
  simp [comparisonConstraintAt, hop]

/-- Claim C4: translating a comparison between two known entities with
operator < produces exactly the same coefficient vectors, bounds and
equality flags as translating it with operator >. -/
theorem comparison_less_mirrors_greater (t : Translator)
    (e : QualitativeEvaluation) (a b : String) (ia ib : Nat)
    (hp : e.projects = [a, b])
    (ha : dictIndex t.projects a = some ia)
    (hb : dictIndex t.projects b = some ib) :
    Except.map (List.map constraintData)
        (parse_comparison_evaluation t
          { e with operator := some ComparisonOperator.greater }) =
      Except.map (List.map constraintData)
        (parse_comparison_evaluation t
          { e with operator := some ComparisonOperator.less }) := by
  rw [parse_comparison_ok t
      { e with operator := some ComparisonOperator.greater } a b ia ib hp ha hb,
    parse_comparison_ok t
      { e with operator := some ComparisonOperator.less } a b ia ib hp ha hb]
  have hG : (comparisonConstraints t
        { e with operator := some ComparisonOperator.greater } a b ia ib).map
          constraintData =
      t.criteria.enum.map (fun ic =>
        ((((zeros t.nvars).set (ia * t.criteria.length + ic.1) 1).set
            (ib * t.criteria.length + ic.1) (-1)),
         (-(1/100) : ℚ), false)) := by
    unfold comparisonConstraints
    rw [flatMap_singleton_eq_map _ _ _
      (fun ic _ => comparisonConstraintAt_greater t _ a b ia ib ic.1 ic.2 rfl)]
    rw [List.map_map]
    rfl
  have hL : (comparisonConstraints t
        { e with operator := some ComparisonOperator.less } a b ia ib).map
          constraintData =
      t.criteria.enum.map (fun ic =>
        ((((zeros t.nvars).set (ia * t.criteria.length + ic.1) 1).set
            (ib * t.criteria.length + ic.1) (-1)),
         (-(1/100) : ℚ), false)) := by
    unfold comparisonConstraints
    rw [flatMap_singleton_eq_map _ _ _
      (fun ic _ => comparisonConstraintAt_less t _ a b ia ib ic.1 ic.2 rfl)]
    rw [List.map_map]
    rfl
  simp only [Except.map]
  rw [hG, hL]

/-- Witness for claim C4: at the concrete comparison of A and B the two
operators produce identical constraint data. -/
theorem comparison_less_mirrors_greater_witness :
    Except.map (List.map constraintData)
        (parse_comparison_evaluation wTranslator
          { wCompare with operator := some ComparisonOperator.greater }) =
      Except.map (List.map constraintData)
        (parse_comparison_evaluation wTranslator
          { wCompare with operator := some ComparisonOperator.less }) :=
  comparison_less_mirrors_greater wTranslator wCompare "A" "B" 0 1 rfl
    (by decide) (by decide)

/-- Claim C5: a Ranking evaluation over k known entities with k at least
2 translates to exactly (k - 1) * n_criteria constraints via the
consecutive-pair greater-than comparisons, and a Ranking with fewer than
2 entities fails with an error. -/
theorem ranking_decomposes_to_pairwise_comparisons (t : Translator)
    (e : QualitativeEvaluation)
    (hk : ∀ p ∈ e.projects, (dictIndex t.projects p).isSome) :
    (2 ≤ e.projects.length →
      ∃ cs, parse_ranking_evaluation t e = Except.ok cs ∧
        cs.length = (e.projects.length - 1) * t.criteria.length) ∧
    (e.projects.length < 2 →
      ∃ m, parse_ranking_evaluation t e = Except.error m) := by
  constructor
  · intro h2
    have hall : ∀ p ∈ consecPairs e.projects,
        ∃ cs, parse_comparison_evaluation t (mkRankingComparison e p.1 p.2) =
            Except.ok cs ∧ cs.length = t.criteria.length := by
      intro p hp
      obtain ⟨hm1, hm2⟩ := consecPairs_mem e.projects p hp
      obtain ⟨ia, hia⟩ := Option.isSome_iff_exists.mp (hk p.1 hm1)
      obtain ⟨ib, hib⟩ := Option.isSome_iff_exists.mp (hk p.2 hm2)
      exact ⟨comparisonConstraints t (mkRankingComparison e p.1 p.2) p.1 p.2 ia ib,
        parse_comparison_ok t _ p.1 p.2 ia ib rfl hia hib,
        comparisonConstraints_length_greater t _ p.1 p.2 ia ib rfl⟩
    obtain ⟨out, hout, hlen⟩ := exceptMapM_ok_of_all t.criteria.length _
      (consecPairs e.projects) hall
    refine ⟨out.flatten, ?_, ?_⟩
    · unfold parse_ranking_evaluation
      rw [if_neg (by omega), hout]
    · rw [hlen, consecPairs_length]
  · intro h2
    exact ⟨_, by unfold parse_ranking_evaluation; rw [if_pos h2]⟩

/-- Witness for claim C5 at the ranking A > B > C with one criterion:
exactly (3 - 1) * 1 constraints. -/
theorem ranking_decomposes_to_pairwise_comparisons_witness :
    ∃ cs, parse_ranking_evaluation wTranslator wRanking = Except.ok cs ∧
      cs.length =
        (wRanking.projects.length - 1) * wTranslator.criteria.length :=
  (ranking_decomposes_to_pairwise_comparisons wTranslator wRanking
    (by decide)).1 (by decide)

/-- Claim C10: a Comparison of two known entities whose operator is none
of >, < and =, and a Threshold on one known entity with one value whose
operator is neither >= nor <=, translate successfully to the empty
constraint list with no error reported. -/
theorem unsupported_operators_silently_empty (t : Translator) :
    (∀ (e : QualitativeEvaluation) (a b : String) (ia ib : Nat)
        (op : ComparisonOperator),
      e.projects = [a, b] →
      dictIndex t.projects a = some ia →
      dictIndex t.projects b = some ib →
      e.operator = some op →
      op ≠ ComparisonOperator.greater → op ≠ ComparisonOperator.less →
      op ≠ ComparisonOperator.equal →
      parse_comparison_evaluation t e = Except.ok []) ∧
    (∀ (e : QualitativeEvaluation) (p : String) (idx : Nat) (v : ℚ)
        (op : ComparisonOperator),
      e.projects = [p] →
      dictIndex t.projects p = some idx →
      e.values = some [v] →
      e.operator = some op →
      op ≠ ComparisonOperator.greaterEqual →
      op ≠ ComparisonOperator.lessEqual →
      parse_threshold_evaluation t e = Except.ok []) := by
  constructor
  · intro e a b ia ib op hp ha hb hop h1 h2 h3
    rw [parse_comparison_ok t e a b ia ib hp ha hb]
    congr 1
    unfold comparisonConstraints
    apply flatMap_nil_of_all
    intro ic _
    cases op <;> simp_all [comparisonConstraintAt]
  · intro e p idx v op hp hidx hv hop h1 h2
    have hred : parse_threshold_evaluation t e =
        Except.ok (t.criteria.enum.flatMap
          (fun ic => thresholdConstraintAt t e p idx v ic.1 ic.2)) := by
      simp [parse_threshold_evaluation, hp, hv, hidx]
    rw [hred]
    congr 1
    apply flatMap_nil_of_all
    intro ic _
    cases op <;> simp_all [thresholdConstraintAt]

/-- Witness for claim C10: the comparison A >= B and the threshold
A > 0.5 both translate to the empty constraint list. -/
theorem unsupported_operators_silently_empty_witness :
    parse_comparison_evaluation wTranslator wCompareGE = Except.ok [] ∧
    parse_threshold_evaluation wTranslator wThresholdGT = Except.ok [] :=
  ⟨(unsupported_operators_silently_empty wTranslator).1 wCompareGE "A" "B" 0 1
      ComparisonOperator.greaterEqual rfl (by decide) (by decide) rfl
      (by decide) (by decide) (by decide),
   (unsupported_operators_silently_empty wTranslator).2 wThresholdGT "A" 0
      (1/2) ComparisonOperator.greater rfl (by decide) rfl rfl (by decide)
      (by decide)⟩

/-- Claim C6: the returned vertex set is deduplicated: for any two
distinct positions of the returned vertex list, it is not the case that
every paired coordinate differs by less than 1e-8. -/
theorem returned_vertices_separated (t : Translator)
    (cs : List LinearConstraint) (pa : Bool)
    (bounds : Option (List (ℚ × ℚ))) (i j : Nat)
    (hi : i <
      ((compute_vertices pa (PolytopeVisualizer.init t cs) bounds).1).length)
    (hj : j <
      ((compute_vertices pa (PolytopeVisualizer.init t cs) bounds).1).length)
    (hij : i < j) :
    ¬ coordClose
      ((compute_vertices pa (PolytopeVisualizer.init t cs) bounds).1.getD i [])
      ((compute_vertices pa (PolytopeVisualizer.init t cs) bounds).1.getD j
        []) := by
  intro hclose
  have hvs : (compute_vertices pa (PolytopeVisualizer.init t cs) bounds).1 =
      dedupVertices
        ((examinedCombos (PolytopeVisualizer.init t cs).b_ineq
            (PolytopeVisualizer.init t cs).n_dimensions).filterMap
          (candidateAt (PolytopeVisualizer.init t cs).A_ineq
            (PolytopeVisualizer.init t cs).b_ineq
            (PolytopeVisualizer.init t cs).n_dimensions
            (bounds.getD
              (defaultBounds (PolytopeVisualizer.init t cs).n_dimensions)))) := by
    rw [compute_vertices_init]
    rfl
  rw [hvs] at hi hj hclose
  have hpw := dedupVertices_pairwise
    ((examinedCombos (PolytopeVisualizer.init t cs).b_ineq
        (PolytopeVisualizer.init t cs).n_dimensions).filterMap
      (candidateAt (PolytopeVisualizer.init t cs).A_ineq
        (PolytopeVisualizer.init t cs).b_ineq
        (PolytopeVisualizer.init t cs).n_dimensions
        (bounds.getD
          (defaultBounds (PolytopeVisualizer.init t cs).n_dimensions))))
  have hrel := (List.pairwise_iff_get.mp hpw) ⟨i, hi⟩ ⟨j, hj⟩ hij
  rw [List.getD_eq_get _ _ hi, List.getD_eq_get _ _ hj] at hclose
  have hall : allclose
      ((dedupVertices _).get ⟨j, hj⟩) ((dedupVertices _).get ⟨i, hi⟩) = true := by
    rw [allclose, List.all_eq_true]
    intro p hpmem
    rw [iteTF_eq_true]
    have hswap : p.swap ∈
        ((dedupVertices _).get ⟨i, hi⟩).zip ((dedupVertices _).get ⟨j, hj⟩) := by
      have hmap := List.mem_map_of_mem Prod.swap hpmem
      rwa [List.zip_swap] at hmap
    have hcl := hclose p.swap hswap
    simp only [Prod.fst_swap, Prod.snd_swap] at hcl
    rw [ratAbs_sub_comm] at hcl
    have hnn : 0 ≤ dedupRtol * ratAbs p.2 :=
      mul_nonneg (by norm_num [dedupRtol]) (ratAbs_nonneg _)
    linarith
  rw [hrel] at hall
  exact Bool.noConfusion hall

/-- Witness for claim C6 at the concrete system of the counterexample
translator: the two returned vertices [5] and [-5] are not within 1e-8
of each other. -/
theorem returned_vertices_separated_witness :
    ¬ coordClose
      ((compute_vertices false
        (PolytopeVisualizer.init cexTranslator cexConstraints) none).1.getD 0
        [])
      ((compute_vertices false
        (PolytopeVisualizer.init cexTranslator cexConstraints) none).1.getD 1
        []) :=
  returned_vertices_separated cexTranslator cexConstraints false none 0 1
    (by norm_num [compute_vertices, PolytopeVisualizer.init,
      get_constraint_matrices, cexConstraints, cexTranslator,
      Translator.nvars, fallbackVertices, enumerateVertices, examinedCombos,
      combinations, candidateAt, det, detAux, signPow, solveSystem,
      replaceCol, dot, satisfiesIneq, inBounds, feasTol, defaultBounds,
      dedupVertices, allclose, ratAbs, dedupAtol, dedupRtol, List.filter,
      List.filterMap, List.foldl, List.zip, List.zipWith, List.range,
      List.range.loop])
    (by norm_num [compute_vertices, PolytopeVisualizer.init,
      get_constraint_matrices, cexConstraints, cexTranslator,
      Translator.nvars, fallbackVertices, enumerateVertices, examinedCombos,
      combinations, candidateAt, det, detAux, signPow, solveSystem,
      replaceCol, dot, satisfiesIneq, inBounds, feasTol, defaultBounds,
      dedupVertices, allclose, ratAbs, dedupAtol, dedupRtol, List.filter,
      List.filterMap, List.foldl, List.zip, List.zipWith, List.range,
      List.range.loop])
    (by norm_num)
